import Mathlib

/-!
Shallow embedding of `src/main.rs` of the `rust-enums` repository
(Rust Book ch. 6 examples: enums and pattern matching) together with
theorems settling the specification claims about it.

Conventions: Rust `u8`/`i32` are modelled as `Nat`/`Int`; `i32`
arithmetic carries an explicit range check because `cargo run` (the
invocation shown in the source's own doc comments) builds the dev
profile, where integer overflow panics.  A Rust panic (`todo!()`,
`unimplemented!()`, arithmetic overflow) is modelled as the `.error`
branch of `Except`; `println!` output relevant to a claim is modelled
as an explicit trace component of the function's result.
-/

/-- Smallest `i32` value, `-2^31`. -/
def i32Min : Int := -(2 ^ 31)

/-- Largest `i32` value, `2^31 - 1`. -/
def i32Max : Int := 2 ^ 31 - 1

/-- The kinds of runtime panic the program can raise: arithmetic
overflow in the dev profile, and the deliberate `unimplemented!()` and
`todo!()` placeholder aborts. -/
inductive PanicKind where
  | overflow
  | unimplemented
  | todo
  deriving DecidableEq, Repr

/-- Checked `i32` addition as `a + b` behaves in the dev (debug)
profile: panics with an overflow error when the mathematical sum
leaves the `i32` range, otherwise returns the sum. -/
def addI32 (a b : Int) : Except PanicKind Int :=
  if i32Min ≤ a + b ∧ a + b ≤ i32Max then .ok (a + b) else .error .overflow

/-- The `Coin` enum of `src/main.rs` (lines 403-409): four payload-free
variants `Penny`, `Nickel`, `Dime`, `Quarter`. -/
inductive Coin where
  | Penny
  | Nickel
  | Dime
  | Quarter
  deriving DecidableEq, Repr, Fintype

/-- `value_in_cents` (lines 383-398).  Returns the lines printed by the
matched arm paired with the coin's value in cents (`u8` in the source;
every result fits).  The `Penny` arm prints `Lucky penny!` before
yielding `1`; the other arms print nothing. -/
def value_in_cents (coin : Coin) : List String × Nat :=
  match coin with
  | .Penny => (["Lucky penny!"], 1)
  | .Nickel => ([], 5)
  | .Dime => ([], 10)
  | .Quarter => ([], 25)

/-- The `UsState` enum (lines 486-538): the 50 US states in declaration
order. -/
inductive UsState where
  | Alabama
  | Alaska
  | Arizona
  | Arkansas
  | California
  | Colorado
  | Connecticut
  | Delaware
  | Florida
  | Georgia
  | Hawaii
  | Idaho
  | Illinois
  | Indiana
  | Iowa
  | Kansas
  | Kentucky
  | Louisiana
  | Maine
  | Maryland
  | Massachusetts
  | Michigan
  | Minnesota
  | Mississippi
  | Missouri
  | Montana
  | Nebraska
  | Nevada
  | NewHampshire
  | NewJersey
  | NewMexico
  | NewYork
  | NorthCarolina
  | NorthDakota
  | Ohio
  | Oklahoma
  | Oregon
  | Pennsylvania
  | RhodeIsland
  | SouthCarolina
  | SouthDakota
  | Tennessee
  | Texas
  | Utah
  | Vermont
  | Virginia
  | Washington
  | WestVirginia
  | Wisconsin
  | Wyoming
  deriving DecidableEq, Repr, Fintype

/-- `impl Default for UsState` (lines 547-551): the default variant is
`Virginia`. -/
def UsState.default : UsState := .Virginia

/-- The `Coin2` enum (lines 556-562): like `Coin` but the `Quarter`
variant carries a `UsState` payload. -/
inductive Coin2 where
  | Penny
  | Nickel
  | Dime
  | Quarter (state : UsState)
  deriving DecidableEq, Repr

/-- `value_in_cents_state_quarters` (lines 571-581).  Returns the list
of states printed by the `Quarter` arm's `println!` (`State quarter
from {:?}!`) paired with the coin's value in cents: the trace component
records exactly the state bindings the `Quarter` branch observes. -/
def value_in_cents_state_quarters (coin : Coin2) : List UsState × Nat :=
  match coin with
  | .Penny => ([], 1)
  | .Nickel => ([], 5)
  | .Dime => ([], 10)
  | .Quarter state => ([state], 25)

/-- The payload-forgetting correspondence named by claim C10 (stated
from the claim's words, to be compared with the source functions):
`Penny` to `Penny`, `Nickel` to `Nickel`, `Dime` to `Dime`, and
`Quarter s` to the payload-free `Quarter`. -/
def Coin2.toCoin : Coin2 → Coin
  | .Penny => .Penny
  | .Nickel => .Nickel
  | .Dime => .Dime
  | .Quarter _ => .Quarter

/-- `plus_one` (lines 611-616): `None => None`,
`Some(i) => Some(i + 1)`, with `i + 1` the checked dev-profile `i32`
addition. -/
def plus_one (x : Option Int) : Except PanicKind (Option Int) :=
  match x with
  | none => .ok none
  | some i => (addI32 i 1).map some

/-- `plus_one_broken` (lines 651-656): `Some(i) => Some(i + 1)` and
`None => todo!()`, the latter aborting the process. -/
def plus_one_broken (x : Option Int) : Except PanicKind (Option Int) :=
  match x with
  | some i => (addI32 i 1).map some
  | none => .error .todo

/-- The `Message` enum (lines 214-219): `Quit` (no data),
`Move { x, y }` (named `i32` fields), `Write(String)`, and
`ChangeColor(i32, i32, i32)`. -/
inductive Message where
  | Quit
  | Move (x y : Int)
  | Write (s : String)
  | ChangeColor (a b c : Int)
  deriving DecidableEq, Repr

/-- `Message::call` (lines 256-268): the `Write` arm prints
`Message: {string}` and returns; the `Quit`, `Move` and `ChangeColor`
arms are `unimplemented!()` placeholders that abort.  The `.ok` result
carries the printed lines. -/
def Message.call (self : Message) : Except PanicKind (List String) :=
  match self with
  | .Write string => .ok (["Message: " ++ string])
  | .Quit => .error .unimplemented
  | .Move _ _ => .error .unimplemented
  | .ChangeColor _ _ _ => .error .unimplemented

/-- Modelled from the spec: the sequence produced by `Coin::iter()`.
The `#[derive(EnumIter)]` attribute is on `Coin` in `src/main.rs`, but
the generated iterator code lives in the `strum` dependency, not under
`src/`; the spec says enumeration yields all tags of the set in
declaration order. -/
def Coin.iter : List Coin := [.Penny, .Nickel, .Dime, .Quarter]

/-- Modelled from the spec: the sequence produced by
`UsState::iter()`.  The `#[derive(EnumIter)]` attribute is on `UsState`
in `src/main.rs`, but the generated iterator code lives in the `strum`
dependency, not under `src/`; the spec says enumeration yields all tags
of the set in declaration order. -/
def UsState.iter : List UsState :=
  [.Alabama, .Alaska, .Arizona, .Arkansas, .California, .Colorado,
   .Connecticut, .Delaware, .Florida, .Georgia, .Hawaii, .Idaho,
   .Illinois, .Indiana, .Iowa, .Kansas, .Kentucky, .Louisiana, .Maine,
   .Maryland, .Massachusetts, .Michigan, .Minnesota, .Mississippi,
   .Missouri, .Montana, .Nebraska, .Nevada, .NewHampshire, .NewJersey,
   .NewMexico, .NewYork, .NorthCarolina, .NorthDakota, .Ohio,
   .Oklahoma, .Oregon, .Pennsylvania, .RhodeIsland, .SouthCarolina,
   .SouthDakota, .Tennessee, .Texas, .Utah, .Vermont, .Virginia,
   .Washington, .WestVirginia, .Wisconsin, .Wyoming]

/-- The action selected by a dice-roll match arm: the stub functions
called by the arms of the three `catch_all_patterns*` functions, the
catch-all binding recorded where the arm uses it, and the unit value of
the no-op arm. -/
inductive DiceAction where
  | addFancyHat
  | removeFancyHat
  | movePlayer (numSpaces : Nat)
  | reroll
  | unit
  deriving DecidableEq, Repr

/-- The match of `catch_all_patterns` (lines 669-680), exposed over its
scrutinee (the source hardcodes `dice_roll = 9`; its type is `u8`).
Arms are tried in order: `3`, then `7`, then the named catch-all
`other => move_player(other)`, which binds the matched value. -/
def catch_all_patterns_match (dice_roll : Nat) : DiceAction :=
  if dice_roll = 3 then .addFancyHat
  else if dice_roll = 7 then .removeFancyHat
  else .movePlayer dice_roll

/-- `catch_all_patterns` (lines 669-680) as run: the match applied to
the hardcoded `dice_roll = 9`. -/
def catch_all_patterns : DiceAction := catch_all_patterns_match 9

/-- The match of `catch_all_patterns_underscore_placeholder`
(lines 694-705), exposed over its scrutinee: arms `3`, `7`, then
`_ => reroll()`, discarding the matched value. -/
def catch_all_patterns_underscore_placeholder_match (dice_roll : Nat) : DiceAction :=
  if dice_roll = 3 then .addFancyHat
  else if dice_roll = 7 then .removeFancyHat
  else .reroll

/-- The match of `catch_all_patterns_noop_catchall` (lines 724-734),
exposed over its scrutinee: arms `3`, `7`, then the no-op `_ => ()`. -/
def catch_all_patterns_noop_catchall_match (dice_roll : Nat) : DiceAction :=
  if dice_roll = 3 then .addFancyHat
  else if dice_roll = 7 then .removeFancyHat
  else .unit

/-- C1: `value_in_cents` returns exactly the declared value for each
`Coin` tag: `Penny` yields 1, `Nickel` 5, `Dime` 10, and `Quarter` (a
payload-free variant) 25. -/
theorem value_in_cents_declared_values :
    (value_in_cents .Penny).2 = 1 ∧ (value_in_cents .Nickel).2 = 5 ∧
    (value_in_cents .Dime).2 = 10 ∧ (value_in_cents .Quarter).2 = 25 := by
  decide

/-- C2: `plus_one` returns `None` unchanged on `None`, and on `Some(i)`
adds 1 and rewraps: `plus_one(Some(5)) = Some(6)` and
`plus_one(None) = None`, both without panicking. -/
theorem plus_one_examples :
    plus_one (some 5) = .ok (some 6) ∧ plus_one none = .ok none := by
  constructor <;> rfl

/-- C3 counterexample: `plus_one` is not total over every `i32` input:
at `Some(2147483647)` (`i32::MAX`) the addition `i + 1` overflows and
the dev-profile build panics instead of returning normally. -/
theorem plus_one_overflow_counterexample :
    plus_one (some 2147483647) = .error .overflow ∧
    ¬ plus_one (some 2147483647) = .ok (some 2147483648) := by
  constructor
  · rfl
  · intro h
    simp [plus_one, addI32, i32Min, i32Max, Except.map] at h

/-- C3 amended: `plus_one` never panics and never substitutes a default
value except on the single overflowing input: `plus_one(None) = None`,
and for every `i32` value `i` with `i < i32::MAX`,
`plus_one(Some(i))` returns `Some(i + 1)` normally. -/
theorem plus_one_total_below_max (i : Int) (hlo : i32Min ≤ i) (hhi : i < i32Max) :
    plus_one none = .ok none ∧ plus_one (some i) = .ok (some (i + 1)) := by
  refine ⟨rfl, ?_⟩
  have h : i32Min ≤ i + 1 ∧ i + 1 ≤ i32Max := by
    constructor <;> omega
  simp [plus_one, addI32, h, Except.map]

/-- C3 witness: the amended totality theorem applied at `i = 41`. -/
theorem plus_one_total_below_max_witness :
    i32Min ≤ (41 : Int) ∧ (41 : Int) < i32Max ∧
    (plus_one none = .ok none ∧ plus_one (some 41) = .ok (some 42)) :=
  ⟨by decide, by decide, plus_one_total_below_max 41 (by decide) (by decide)⟩

/-- C4: for every `UsState` `s`, `value_in_cents_state_quarters` on
`Coin2::Quarter(s)` yields 25 and exposes exactly `s` to the `Quarter`
branch; in particular `Virginia` and `Texas` payloads round-trip
unchanged through construction and destructuring. -/
theorem quarter_state_round_trip :
    (∀ s : UsState, value_in_cents_state_quarters (.Quarter s) = ([s], 25)) ∧
    value_in_cents_state_quarters (.Quarter .Virginia) = ([.Virginia], 25) ∧
    (value_in_cents_state_quarters (.Quarter .Texas)).1 = [.Texas] :=
  ⟨fun _ => rfl, rfl, rfl⟩

/-- C5 counterexample: `plus_one_broken` on `Some(i)` does not always
complete normally with `Some(i + 1)`: at `Some(2147483647)`
(`i32::MAX`) the `i + 1` addition overflows and the dev-profile build
aborts. -/
theorem plus_one_broken_overflow_counterexample :
    plus_one_broken (some 2147483647) = .error .overflow ∧
    ¬ plus_one_broken (some 2147483647) = .ok (some 2147483648) := by
  constructor
  · rfl
  · intro h
    simp [plus_one_broken, addI32, i32Min, i32Max, Except.map] at h

/-- C5 amended: every reachable placeholder branch aborts:
`Message::call` on `Quit`, `Move`, or `ChangeColor` aborts via
`unimplemented!()` and `plus_one_broken(None)` aborts via `todo!()`,
while `Message::call` on `Write(s)` completes normally and
`plus_one_broken(Some(i))` completes normally returning `Some(i + 1)`
for every `i32` value `i` below `i32::MAX` (at `i = i32::MAX` the
addition itself overflows and aborts). -/
theorem placeholder_branches_abort (x y a b c : Int) (s : String) (i : Int)
    (hlo : i32Min ≤ i) (hhi : i < i32Max) :
    Message.call .Quit = .error .unimplemented ∧
    Message.call (.Move x y) = .error .unimplemented ∧
    Message.call (.ChangeColor a b c) = .error .unimplemented ∧
    plus_one_broken none = .error .todo ∧
    Message.call (.Write s) = .ok (["Message: " ++ s]) ∧
    plus_one_broken (some i) = .ok (some (i + 1)) := by
  refine ⟨rfl, rfl, rfl, rfl, rfl, ?_⟩
  have h : i32Min ≤ i + 1 ∧ i + 1 ≤ i32Max := by
    constructor <;> omega
  simp [plus_one_broken, addI32, h, Except.map]

/-- C5 witness: the placeholder theorem applied at concrete inputs
(`Write "hello"`, `i = 1`). -/
theorem placeholder_branches_abort_witness :
    Message.call .Quit = .error .unimplemented ∧
    Message.call (.Move 0 0) = .error .unimplemented ∧
    Message.call (.ChangeColor 0 0 0) = .error .unimplemented ∧
    plus_one_broken none = .error .todo ∧
    Message.call (.Write ("hello")) = .ok (["Message: hello"]) ∧
    plus_one_broken (some 1) = .ok (some 2) :=
  placeholder_branches_abort 0 0 0 0 0 ("hello") 1 (by decide) (by decide)

/-- C7: `Coin::iter()` yields exactly the 4 distinct tags
`[Penny, Nickel, Dime, Quarter]` in declaration order and
`UsState::iter()` yields exactly 50 distinct tags in declaration order
(every tag of each set occurs, none twice; the sequences are pure
values, so repeated enumeration yields the same sequence). -/
theorem enum_iter_complete_ordered :
    Coin.iter = [.Penny, .Nickel, .Dime, .Quarter] ∧
    Coin.iter.length = 4 ∧ Coin.iter.Nodup ∧ (∀ c : Coin, c ∈ Coin.iter) ∧
    UsState.iter.length = 50 ∧ UsState.iter.Nodup ∧
    (∀ s : UsState, s ∈ UsState.iter) ∧
    UsState.iter[0]? = some .Alabama ∧
    UsState.iter[45]? = some .Virginia ∧
    UsState.iter[49]? = some .Wyoming := by
  decide

/-- C8: in each dice-roll match, the named arms take priority (`3`
invokes `add_fancy_hat`, `7` invokes `remove_fancy_hat`) and every
other input falls to the trailing catch-all: `move_player(other)` with
the matched value bound in `catch_all_patterns`, `reroll()` in the
underscore variant, and the unit no-op in the no-op variant. -/
theorem catch_all_dispatch (n : Nat) (h3 : n ≠ 3) (h7 : n ≠ 7) :
    catch_all_patterns_match 3 = .addFancyHat ∧
    catch_all_patterns_match 7 = .removeFancyHat ∧
    catch_all_patterns_match n = .movePlayer n ∧
    catch_all_patterns_underscore_placeholder_match 3 = .addFancyHat ∧
    catch_all_patterns_underscore_placeholder_match 7 = .removeFancyHat ∧
    catch_all_patterns_underscore_placeholder_match n = .reroll ∧
    catch_all_patterns_noop_catchall_match 3 = .addFancyHat ∧
    catch_all_patterns_noop_catchall_match 7 = .removeFancyHat ∧
    catch_all_patterns_noop_catchall_match n = .unit := by
  refine ⟨rfl, rfl, ?_, rfl, rfl, ?_, rfl, rfl, ?_⟩ <;>
    simp [catch_all_patterns_match,
      catch_all_patterns_underscore_placeholder_match,
      catch_all_patterns_noop_catchall_match, h3, h7]

/-- C8 witness: the dispatch theorem applied at the source's hardcoded
roll `n = 9`, which is neither 3 nor 7. -/
theorem catch_all_dispatch_witness :
    catch_all_patterns_match 9 = .movePlayer 9 ∧
    catch_all_patterns_underscore_placeholder_match 9 = .reroll ∧
    catch_all_patterns_noop_catchall_match 9 = .unit :=
  ⟨(catch_all_dispatch 9 (by decide) (by decide)).2.2.1,
   (catch_all_dispatch 9 (by decide) (by decide)).2.2.2.2.2.1,
   (catch_all_dispatch 9 (by decide) (by decide)).2.2.2.2.2.2.2.2⟩

/-- C9: `UsState::default()` is `Virginia`, so
`Coin2::Quarter(UsState::default())` is `Quarter(Virginia)`. -/
theorem default_state_virginia :
    UsState.default = .Virginia ∧
    Coin2.Quarter UsState.default = .Quarter .Virginia := by
  decide

/-- C10: `value_in_cents_state_quarters` refines `value_in_cents`: for
every `Coin2` value its result in cents equals `value_in_cents` of the
corresponding payload-free `Coin` variant, so a `Quarter`'s cent value
is independent of its `UsState` payload. -/
theorem state_quarters_refines_value_in_cents :
    ∀ coin : Coin2,
      (value_in_cents_state_quarters coin).2 = (value_in_cents coin.toCoin).2 := by
  intro coin
  cases coin <;> rfl
